import Mathlib

/-!
Verification of the concurrent request-processing pipeline of the
`my-digital-home` HTTP backend: the token-bucket rate limiter, the
timeout (deadline guard) middleware, the content-security scanner and
the optimistic-concurrency password update, as implemented in
`pkg/web/middleware/middleware.go`, `pkg/web/router/api.go` and the
GORM user repository (`GormUserRepository`, the implementation wired as
`DefaultUserRepo` and used by the handlers).
-/

/- ### Token-bucket limiter (`pkg/web/middleware/middleware.go:150-183`)

The Go `TokenBucket` holds `capacity int` (the `rate` argument of
`NewTokenBucket`), a buffered channel `tokens chan struct{}` of capacity
`rate`, and `rate time.Duration` (the refill interval).  We model the
buffered channel by the number of queued tokens. -/

structure TokenBucket where
  capacity : Nat
  tokens : Nat
  rate : Nat
  deriving DecidableEq, Repr

/-- `NewTokenBucket(rate, interval)`: `make(chan struct\x7b\x7d, rate)` creates an
empty buffered channel, so the bucket starts with zero tokens. -/
def NewTokenBucket (rate interval : Nat) : TokenBucket :=
  { capacity := rate, tokens := 0, rate := interval }

/-- One tick of the refill goroutine: a non-blocking send
(`select \x7b case tb.tokens <- struct\x7b\x7d\x7b\x7d: default: \x7d`).  The send succeeds
exactly when the buffered channel has free space (`tokens < capacity`);
otherwise the token is discarded.  For `capacity = 0` the channel is
unbuffered and neither the refill goroutine nor `Allow` ever blocks on
it, so the non-blocking send never finds a waiting receiver and always
falls through to `default`, which the `tokens < 0 = false` branch models. -/
def TokenBucket.refillTick (tb : TokenBucket) : TokenBucket :=
  if tb.tokens < tb.capacity then { tb with tokens := tb.tokens + 1 } else tb

/-- `TokenBucket.Allow`: a non-blocking receive; returns `true` and consumes
one token when one is buffered, else returns `false` immediately. -/
def TokenBucket.Allow (tb : TokenBucket) : Bool × TokenBucket :=
  if 0 < tb.tokens then (true, { tb with tokens := tb.tokens - 1 }) else (false, tb)

/-- Events acting on a bucket: a tick of the refill goroutine, or an
`Allow` call made by the rate-limit middleware for one request. -/
inductive BucketEvent where
  | refill
  | acquire
  deriving DecidableEq, Repr

/-- Run a bucket through an interleaving of refill ticks and `Allow`
calls; returns the final bucket and the list of `Allow` results in
order. -/
def runBucket (tb : TokenBucket) : List BucketEvent → TokenBucket × List Bool
  | [] => (tb, [])
  | BucketEvent.refill :: evs => runBucket tb.refillTick evs
  | BucketEvent.acquire :: evs =>
      ((runBucket (tb.Allow).2 evs).1,
        (tb.Allow).1 :: (runBucket (tb.Allow).2 evs).2)

theorem refillTick_capacity (tb : TokenBucket) :
    tb.refillTick.capacity = tb.capacity := by
  unfold TokenBucket.refillTick; split <;> rfl

theorem refillTick_tokens_le (tb : TokenBucket) (h : tb.tokens ≤ tb.capacity) :
    tb.refillTick.tokens ≤ tb.capacity := by
  unfold TokenBucket.refillTick
  split
  · next hlt => exact Nat.succ_le_of_lt hlt
  · exact h

theorem Allow_snd_capacity (tb : TokenBucket) :
    (tb.Allow).2.capacity = tb.capacity := by
  unfold TokenBucket.Allow; split <;> rfl

theorem Allow_snd_tokens_le (tb : TokenBucket) (h : tb.tokens ≤ tb.capacity) :
    (tb.Allow).2.tokens ≤ tb.capacity := by
  unfold TokenBucket.Allow
  split
  · exact le_trans (Nat.sub_le _ _) h
  · exact h

theorem runBucket_capacity (tb : TokenBucket) (evs : List BucketEvent) :
    (runBucket tb evs).1.capacity = tb.capacity := by
  induction evs generalizing tb with
  | nil => rfl
  | cons e evs ih =>
      cases e with
      | refill => rw [runBucket, ih, refillTick_capacity]
      | acquire => rw [runBucket]; exact (ih (tb.Allow).2).trans (Allow_snd_capacity tb)

theorem runBucket_tokens_le (tb : TokenBucket) (evs : List BucketEvent)
    (h : tb.tokens ≤ tb.capacity) :
    (runBucket tb evs).1.tokens ≤ tb.capacity := by
  induction evs generalizing tb with
  | nil => exact h
  | cons e evs ih =>
      cases e with
      | refill =>
          rw [runBucket]
          have := ih tb.refillTick
            (by rw [refillTick_capacity]; exact refillTick_tokens_le tb h)
          rwa [refillTick_capacity] at this
      | acquire =>
          rw [runBucket]
          have := ih (tb.Allow).2
            (by rw [Allow_snd_capacity]; exact Allow_snd_tokens_le tb h)
          rwa [Allow_snd_capacity] at this

theorem Allow_of_zero (tb : TokenBucket) (h : tb.tokens = 0) :
    tb.Allow = (false, tb) := by
  unfold TokenBucket.Allow
  rw [h]
  rfl

theorem runBucket_zero_tokens_acquire_only (tb : TokenBucket) (n : Nat)
    (h : tb.tokens = 0) :
    runBucket tb (List.replicate n BucketEvent.acquire)
      = (tb, List.replicate n false) := by
  induction n generalizing tb with
  | zero => rfl
  | succ n ih =>
      rw [List.replicate_succ, runBucket, Allow_of_zero tb h, ih tb h]
      rfl

theorem runBucket_capZero (tb : TokenBucket) (evs : List BucketEvent)
    (hc : tb.capacity = 0) (h : tb.tokens = 0) :
    (runBucket tb evs).1 = tb
      ∧ (runBucket tb evs).2.all (fun b => b = false) = true := by
  induction evs generalizing tb with
  | nil => exact ⟨rfl, rfl⟩
  | cons e evs ih =>
      cases e with
      | refill =>
          rw [runBucket]
          have hr : tb.refillTick = tb := by
            unfold TokenBucket.refillTick
            rw [hc, h]
            rfl
          rw [hr]
          exact ih tb hc h
      | acquire =>
          rw [runBucket, Allow_of_zero tb h]
          exact ⟨(ih tb hc h).1, by simpa using (ih tb hc h).2⟩

/-- C5: a limiter configured with `rate = 0` denies every `Allow` call over
any interleaving of refill ticks and acquisitions, and leaves the bucket
unchanged; a limiter whose refill goroutine never ticks (the `interval = 0`
case: `time.NewTicker(0)` raises before producing any tick, so no refill
event ever occurs) likewise denies every `Allow` call and leaves the
bucket unchanged. -/
theorem limiter_fail_closed (evs : List BucketEvent) (interval C n : Nat) :
    (runBucket (NewTokenBucket 0 interval) evs).2.all (fun b => b = false) = true
  ∧ (runBucket (NewTokenBucket 0 interval) evs).1 = NewTokenBucket 0 interval
  ∧ (runBucket (NewTokenBucket C 0) (List.replicate n BucketEvent.acquire)).2.all
      (fun b => b = false) = true
  ∧ (runBucket (NewTokenBucket C 0) (List.replicate n BucketEvent.acquire)).1
      = NewTokenBucket C 0 := by
  have h0 := runBucket_capZero (NewTokenBucket 0 interval) evs rfl rfl
  have h1 := runBucket_zero_tokens_acquire_only (NewTokenBucket C 0) n rfl
  refine ⟨h0.2, h0.1, ?_, ?_⟩
  · rw [h1]
    simp
  · rw [h1]

/-- C7: over every interleaving of refill ticks and `Allow` calls starting
from a fresh bucket of capacity `C`, the token count never exceeds `C`;
one refill tick adds exactly one token when below capacity and discards
the token at capacity; an `Allow` call succeeds exactly when a token is
buffered, a successful call removes exactly one token, and a failed call
leaves the bucket unchanged — so the count decreases only through a
successful acquire. -/
theorem tokenBucket_count_invariant (C interval : Nat) (evs : List BucketEvent)
    (tb : TokenBucket) :
    (runBucket (NewTokenBucket C interval) evs).1.tokens ≤ C
  ∧ tb.refillTick.tokens
      = (if tb.tokens < tb.capacity then tb.tokens + 1 else tb.tokens)
  ∧ tb.refillTick.capacity = tb.capacity
  ∧ (tb.Allow).1 = decide (0 < tb.tokens)
  ∧ (tb.Allow).2.tokens = tb.tokens - (if (tb.Allow).1 then 1 else 0)
  ∧ (tb.Allow).2.capacity = tb.capacity := by
  refine ⟨runBucket_tokens_le (NewTokenBucket C interval) evs (Nat.zero_le C), ?_, ?_, ?_, ?_, ?_⟩
  · unfold TokenBucket.refillTick
    split <;> simp_all
  · exact refillTick_capacity tb
  · unfold TokenBucket.Allow
    split <;> simp_all
  · unfold TokenBucket.Allow
    split <;> simp_all
  · exact Allow_snd_capacity tb

/-- C10: a bucket created by `NewTokenBucket` starts with an empty token
channel, so for every configured rate `R` each `Allow` call made before
the first refill tick (a trace of acquisitions only) returns `false` and
leaves the bucket unchanged: the first request in a fresh process is
rejected until one refill interval has elapsed. -/
theorem fresh_bucket_starts_empty (R interval n : Nat) :
    (NewTokenBucket R interval).tokens = 0
  ∧ (runBucket (NewTokenBucket R interval) (List.replicate n BucketEvent.acquire)).2
      = List.replicate n false
  ∧ (runBucket (NewTokenBucket R interval) (List.replicate n BucketEvent.acquire)).1
      = NewTokenBucket R interval := by
  have h := runBucket_zero_tokens_acquire_only (NewTokenBucket R interval) n rfl
  exact ⟨rfl, by rw [h], by rw [h]⟩

/- ### Deadline guard (`TimeoutMiddleware`, `pkg/web/middleware/middleware.go:97-130`)

`TimeoutMiddleware(seconds)` runs the remaining chain in a separate
goroutine whose deferred `recover` stores a raised value in `panicErr`
and closes `done`, then selects on `timeoutCtx.Done()` against `done`.
The `select` commits to exactly one branch: the branch taken is decided
by the race between the worker finishing and the deadline elapsing, which
we expose as a `RaceWinner` parameter (when both are ready the select
picks one of them; either choice is a legal winner).  The deadline branch
writes the 503 timeout response and returns, ignoring the worker from
then on; the done branch re-raises a recovered value to the outer
recovery middleware or else leaves the worker's response in place. -/

structure Response where
  status : Nat
  code : Nat
  message : String
  deriving DecidableEq, Repr

/-- Response written by the deadline branch:
`AbortWithStatusJSON(503, \x7b"code": 503000, "message": "service unavailable"\x7d)`. -/
def timeoutResponse : Response :=
  { status := 503, code := 503000, message := "service unavailable" }

/-- Outcome of the worker goroutine hosting `ctx.Next(timeoutCtx)`: it
either completes normally with the response the chain produced, or a
raised value is captured by the deferred `recover` into `panicErr`. -/
inductive WorkOutcome where
  | completed (resp : Response)
  | panicked (err : String)
  deriving DecidableEq, Repr

/-- Which event the `select` observes first: the worker's `done` channel
closing, or the deadline context firing. -/
inductive RaceWinner where
  | workDone
  | deadlineFired
  deriving DecidableEq, Repr

/-- What the guard's caller observes: the worker's response delivered
unchanged, the guard's own 503 timeout response, or the worker's raised
value re-raised to the outer recovery layer. -/
inductive GuardResult where
  | delivered (resp : Response)
  | timeoutAbort (resp : Response)
  | reraised (err : String)
  deriving DecidableEq, Repr

def GuardResult.isDelivered : GuardResult → Bool
  | GuardResult.delivered _ => true
  | _ => false

def GuardResult.isTimeout : GuardResult → Bool
  | GuardResult.timeoutAbort _ => true
  | _ => false

def GuardResult.isReraised : GuardResult → Bool
  | GuardResult.reraised _ => true
  | _ => false

/-- The `select` statement of `TimeoutMiddleware`: on the deadline branch
the guard aborts with the 503 response (whatever the worker is still
doing, and whatever it later does); on the done branch it re-raises a
recovered `panicErr` or delivers the worker's response. -/
def runGuard (winner : RaceWinner) (w : WorkOutcome) : GuardResult :=
  match winner with
  | RaceWinner.deadlineFired => GuardResult.timeoutAbort timeoutResponse
  | RaceWinner.workDone =>
      match w with
      | WorkOutcome.completed r => GuardResult.delivered r
      | WorkOutcome.panicked e => GuardResult.reraised e

/-- C3: if the worker completes before the deadline the guard delivers the
worker's result unchanged; if the deadline elapses first the guard
produces the 503 timeout response, whatever the worker outcome turns out
to be; the caller never observes both a delivered result and a timeout,
and for a normally completing worker it observes one of the two. -/
theorem deadline_guard_race (w : WorkOutcome) (r : Response) (win : RaceWinner) :
    runGuard RaceWinner.workDone (WorkOutcome.completed r) = GuardResult.delivered r
  ∧ runGuard RaceWinner.deadlineFired w = GuardResult.timeoutAbort timeoutResponse
  ∧ ((runGuard win w).isDelivered && (runGuard win w).isTimeout) = false
  ∧ ((runGuard win (WorkOutcome.completed r)).isDelivered
      || (runGuard win (WorkOutcome.completed r)).isTimeout) = true := by
  refine ⟨rfl, rfl, ?_, ?_⟩
  · cases win <;> cases w <;> rfl
  · cases win <;> rfl

/-- C6: a value raised by the worker before the deadline is re-raised to
the guard's caller unchanged (for the outer recovery middleware); once
the deadline branch has fired, a later raise is captured by the worker's
deferred `recover` and never re-raised — the deadline branch never
surfaces a worker failure, so a failure is never reported on both
branches. -/
theorem guard_panic_handling (e : String) (w : WorkOutcome) (win : RaceWinner) :
    runGuard RaceWinner.workDone (WorkOutcome.panicked e) = GuardResult.reraised e
  ∧ runGuard RaceWinner.deadlineFired (WorkOutcome.panicked e)
      = GuardResult.timeoutAbort timeoutResponse
  ∧ ((runGuard win w).isReraised && (runGuard win w).isTimeout) = false
  ∧ (runGuard RaceWinner.deadlineFired w).isReraised = false := by
  refine ⟨rfl, rfl, ?_, rfl⟩
  cases win <;> cases w <;> rfl

/- ### Content scanner (`SecurityCheckMiddleware` / `hasMaliciousContent`,
`pkg/web/middleware/middleware.go:186-219,292-318`)

`SecurityCheckMiddleware` precompiles two case-sensitive RE2 patterns:
`xssRegex` matching one of `<script.*?>`, `</script>`, `alert(`,
`onerror=`, and `sqlInjectRegex` matching `\b(union|select|drop|delete|insert)\b`.
Both are embedded below as decidable matchers with RE2 semantics: `.`
matches any character except a newline, and `\b` is an ASCII word
boundary (word characters are `[0-9A-Za-z_]`).  The patterns contain no
case-insensitivity flag, so only lowercase SQL keywords can match. -/

def isWordChar (c : Char) : Bool :=
  ('a' ≤ c && c ≤ 'z') || ('A' ≤ c && c ≤ 'Z') || ('0' ≤ c && c ≤ '9') || c = '_'

def sqlKeywords : List (List Char) :=
  ["union", "select", "drop", "delete", "insert"].map (fun s => s.toList)

/-- RE2 word boundary to the right of a keyword occurrence: end of input
or a non-word character. -/
def boundaryAfter : List Char → Bool
  | [] => true
  | c :: _ => !isWordChar c

/-- A keyword occurrence starting at the head of `s`, closed by a word
boundary (the keywords start and end with word characters, so the left
boundary is checked by the caller via the previous character). -/
def keywordAt (kw : List Char) (s : List Char) : Bool :=
  kw.isPrefixOf s && boundaryAfter (s.drop kw.length)

def prevNonWord : Option Char → Bool
  | none => true
  | some p => !isWordChar p

/-- Scan for `\b(union|select|drop|delete|insert)\b`, tracking the
character preceding the current position for the left word boundary. -/
def sqlScan : Option Char → List Char → Bool
  | _, [] => false
  | prev, c :: rest =>
      (prevNonWord prev && sqlKeywords.any (fun kw => keywordAt kw (c :: rest)))
        || sqlScan (some c) rest

/-- `sqlInjectRegex.Match(data)`. -/
def sqlMatch (s : String) : Bool := sqlScan none s.toList

/-- Matcher for the tail `.*?>` of `<script.*?>`: some run of
non-newline characters followed by `>` (for a bare `Match`, the lazy
quantifier has the same extension as the greedy one). -/
def dotStarThen (t : Char) : List Char → Bool
  | [] => false
  | c :: rest => c = t || (!(c = '\n') && dotStarThen t rest)

/-- One alternative of `xssRegex` anchored at the head of `s`. -/
def xssAt (s : List Char) : Bool :=
  ("<script".toList.isPrefixOf s && dotStarThen '>' (s.drop 7))
    || "</script>".toList.isPrefixOf s
    || "alert(".toList.isPrefixOf s
    || "onerror=".toList.isPrefixOf s

def xssScan : List Char → Bool
  | [] => false
  | c :: rest => xssAt (c :: rest) || xssScan rest

/-- `xssRegex.Match(data)`. -/
def xssMatch (s : String) : Bool := xssScan s.toList

/-- The `check` closure of `hasMaliciousContent`:
`xss.Match(data) || sql.Match(data)`. -/
def checkData (data : String) : Bool := xssMatch data || sqlMatch data

/-- The `visitor` closure folded over a parameter list: the atomic
`found` flag short-circuits the checks (already-found entries are
visited but not checked). -/
def visitArgs (found : Bool) : List (String × String) → Bool
  | [] => found
  | (k, v) :: rest =>
      if found then visitArgs found rest
      else visitArgs (checkData k || checkData v) rest

/-- `hasMaliciousContent`: visit all query parameters, return `true` as
soon as the flag is set, otherwise continue over the post-form
parameters. -/
def hasMaliciousContent (queryArgs postArgs : List (String × String)) : Bool :=
  if visitArgs false queryArgs then true
  else visitArgs (visitArgs false queryArgs) postArgs

def uppercaseInjection : String := "1 UNION SELECT * FROM users"

def benignQuery : String := "hello world"

def lowercaseInjection : String := "1 union select * from users"

/-- C4: on the parameter set `q = "1 UNION SELECT * FROM users"` the
scanner of `SecurityCheckMiddleware` reports NO violation, because
`sqlInjectRegex` is compiled without a case-insensitivity flag and so
matches only the lowercase keywords `union|select|drop|delete|insert`;
the benign input `q = "hello world"` also reports no violation, and the
same payload written in lowercase is flagged — exhibiting that the
uppercase miss comes from the case-sensitive pattern, not from the
visitor logic. -/
theorem scanner_case_sensitivity :
    hasMaliciousContent [("q", uppercaseInjection)] [] = false
  ∧ hasMaliciousContent [("q", benignQuery)] [] = false
  ∧ hasMaliciousContent [("q", lowercaseInjection)] [] = true
  ∧ sqlMatch uppercaseInjection = false
  ∧ sqlMatch lowercaseInjection = true := by
  refine ⟨by decide, by decide, by decide, by decide, by decide⟩

/- ### Pipeline composition (`RegisterAPIs`, `pkg/web/router/api.go:12-36`)

`RegisterAPIs` registers the global middlewares with `h.Use` in the
order Recovery, Logger, SecurityCheck, Timeout, CORS, RateLimit; the
matched route handler runs last.  Hertz middlewares execute in
registration order, each running the remainder of the chain through
`ctx.Next`, so `TimeoutMiddleware`'s worker goroutine hosts exactly the
part of the chain registered after it. -/

inductive MW where
  | recovery
  | logger
  | securityCheck
  | timeout
  | corsMW
  | rateLimit
  | handler
  deriving DecidableEq, Repr

/-- The chain `RegisterAPIs` installs, in execution order, with the
business handler at the end. -/
def registeredChain : List MW :=
  [MW.recovery, MW.logger, MW.securityCheck, MW.timeout, MW.corsMW,
    MW.rateLimit, MW.handler]

/-- Position of a middleware in a chain; middlewares run in increasing
position order. -/
def chainPos (m : MW) : List MW → Nat
  | [] => 0
  | x :: rest => if x = m then 0 else chainPos m rest + 1

/-- The part of the chain executed inside `TimeoutMiddleware`'s worker
goroutine: everything registered after `timeout` (its `ctx.Next(timeoutCtx)`
runs exactly the remaining chain). -/
def guardBody : List MW → List MW
  | [] => []
  | m :: rest => if m = MW.timeout then rest else guardBody rest

/-- C8 counterexample: the registered chain does not satisfy the claimed
shape — although scanner, limiter and handler do run in that order, the
content scanner (`SecurityCheckMiddleware`) is registered before
`TimeoutMiddleware` and therefore runs outside the Deadline Guard, not
inside it. -/
theorem pipeline_guard_claim_false :
    ¬ (chainPos MW.securityCheck registeredChain < chainPos MW.rateLimit registeredChain
      ∧ chainPos MW.rateLimit registeredChain < chainPos MW.handler registeredChain
      ∧ MW.securityCheck ∈ guardBody registeredChain
      ∧ MW.rateLimit ∈ guardBody registeredChain
      ∧ MW.handler ∈ guardBody registeredChain) := by
  decide

/-- C8 amended: within one request the content scanner, the rate limiter
and the business handler execute in strict sequence in that order, and
the Deadline Guard wraps the rate limiter and the business handler; the
content scanner, however, runs before the Deadline Guard and outside it. -/
theorem pipeline_order_guard_scope :
    chainPos MW.securityCheck registeredChain < chainPos MW.rateLimit registeredChain
  ∧ chainPos MW.rateLimit registeredChain < chainPos MW.handler registeredChain
  ∧ chainPos MW.securityCheck registeredChain < chainPos MW.timeout registeredChain
  ∧ MW.securityCheck ∉ guardBody registeredChain
  ∧ MW.rateLimit ∈ guardBody registeredChain
  ∧ MW.handler ∈ guardBody registeredChain := by
  refine ⟨by decide, by decide, by decide, by decide, by decide, by decide⟩

/- ### Credential store (`GormUserRepository.UpdatePassword`,
`pkg/core/user/repository/dao/impl`, lines 103-129 of the GORM file)

The live repository (wired as `DefaultUserRepo` by `NewUserRepository`
and injected into the handlers) updates a password inside one
transaction: a `SELECT ... FOR UPDATE WHERE id = ? AND is_active = true`
(failure is mapped by `wrapGormError` to `ErrUserNotFound`), followed by
`UPDATE users SET password_hash = ?, version = <read version> + 1,
updated_at = now() WHERE id = ? AND version = <read version>`; zero
affected rows yield `ErrUserNotFound` and the transaction rolls back.
We model the table as an association list from id to record and expose
the two SQL statements as separate phases so that interleavings with a
concurrent writer can be expressed; returning an error from the
transaction body means the database is left as it was. -/

structure UserRec where
  username : String
  email : String
  passwordHash : String
  isActive : Bool
  version : Nat
  createdAt : Nat
  updatedAt : Nat
  deriving DecidableEq, Repr

abbrev UserId := Nat

abbrev DB := List (UserId × UserRec)

inductive RepoError where
  | userNotFound
  | duplicateEntry
  | databaseInternal
  deriving DecidableEq, Repr

def dbLookup : DB → UserId → Option UserRec
  | [], _ => none
  | (j, u) :: rest, id => if j = id then some u else dbLookup rest id

/-- Row update of the record stored under `id` (the table has at most
one row per primary key; the update rewrites every pair carrying that
key). -/
def dbUpdate : DB → UserId → UserRec → DB
  | [], _, _ => []
  | (j, v) :: rest, id, u =>
      if j = id then (id, u) :: dbUpdate rest id u
      else (j, v) :: dbUpdate rest id u

/-- The read phase: `SELECT ... FOR UPDATE WHERE id = ? AND is_active = true`,
with `gorm.ErrRecordNotFound` mapped to `ErrUserNotFound` by
`wrapGormError`. -/
def updateReadPhase (db : DB) (id : UserId) : Except RepoError UserRec :=
  match dbLookup db id with
  | none => Except.error RepoError.userNotFound
  | some u =>
      if u.isActive then Except.ok u else Except.error RepoError.userNotFound

/-- The conditional `UPDATE ... WHERE id = ? AND version = ?`: returns the
new table and the number of affected rows.  As in the SQL, the predicate
checks only id and version (not `is_active`); on success it sets the
password hash, bumps the version by exactly one and refreshes
`updated_at`. -/
def condUpdatePassword (db : DB) (id : UserId) (ver : Nat) (hash : String)
    (now : Nat) : DB × Nat :=
  match dbLookup db id with
  | some u =>
      if u.version = ver then
        (dbUpdate db id
          { u with passwordHash := hash, version := ver + 1, updatedAt := now }, 1)
      else (db, 0)
  | none => (db, 0)

/-- The write phase of `UpdatePassword`: run the conditional update;
`RowsAffected == 0` is reported as `ErrUserNotFound` and aborts the
transaction, leaving the table untouched. -/
def updateWritePhase (db : DB) (id : UserId) (ver : Nat) (hash : String)
    (now : Nat) : DB × Except RepoError Unit :=
  if (condUpdatePassword db id ver hash now).2 = 0 then
    (db, Except.error RepoError.userNotFound)
  else ((condUpdatePassword db id ver hash now).1, Except.ok ())

/-- `GormUserRepository.UpdatePassword`: read phase, then write phase
conditioned on the version just read; an error anywhere rolls the
transaction back (the table is returned unchanged). -/
def UpdatePassword (db : DB) (id : UserId) (hash : String) (now : Nat) :
    DB × Except RepoError Unit :=
  match updateReadPhase db id with
  | Except.error e => (db, Except.error e)
  | Except.ok u => updateWritePhase db id u.version hash now

theorem dbLookup_update_self (db : DB) (id : UserId) (v u : UserRec)
    (h : dbLookup db id = some v) :
    dbLookup (dbUpdate db id u) id = some u := by
  induction db with
  | nil => simp [dbLookup] at h
  | cons p rest ih =>
      obtain ⟨j, w⟩ := p
      by_cases hp : j = id
      · subst hp
        simp [dbUpdate, dbLookup]
      · simp only [dbUpdate, if_neg hp, dbLookup] at h ⊢
        exact ih h

theorem dbLookup_update_other (db : DB) (id j : UserId) (u : UserRec)
    (h : j ≠ id) :
    dbLookup (dbUpdate db id u) j = dbLookup db j := by
  induction db with
  | nil => rfl
  | cons p rest ih =>
      obtain ⟨k, w⟩ := p
      by_cases hk : k = id
      · subst hk
        have hkj : ¬ (k = j) := fun hh => h hh.symm
        simp only [dbUpdate, if_pos rfl, dbLookup, if_neg hkj]
        exact ih
      · simp only [dbUpdate, if_neg hk, dbLookup]
        by_cases hj : k = j
        · rw [if_pos hj, if_pos hj]
        · rw [if_neg hj, if_neg hj]
          exact ih

theorem condUpdate_hit (db : DB) (id : UserId) (u : UserRec) (hash : String)
    (now : Nat) (hu : dbLookup db id = some u) :
    condUpdatePassword db id u.version hash now
      = (dbUpdate db id
          { u with passwordHash := hash, version := (u.version + 1),
                   updatedAt := now },
         1) := by
  unfold condUpdatePassword
  rw [hu]
  simp

theorem condUpdate_miss (db : DB) (id : UserId) (u : UserRec) (ver : Nat)
    (hash : String) (now : Nat) (hu : dbLookup db id = some u)
    (hne : ¬ u.version = ver) :
    condUpdatePassword db id ver hash now = (db, 0) := by
  unfold condUpdatePassword
  rw [hu]
  simp [hne]

theorem updateWritePhase_hit (db : DB) (id : UserId) (u : UserRec) (hash : String)
    (now : Nat) (hu : dbLookup db id = some u) :
    updateWritePhase db id u.version hash now
      = (dbUpdate db id
          { u with passwordHash := hash, version := (u.version + 1),
                   updatedAt := now },
         Except.ok ()) := by
  unfold updateWritePhase
  rw [condUpdate_hit db id u hash now hu]
  simp

theorem updateWritePhase_miss (db : DB) (id : UserId) (u : UserRec) (ver : Nat)
    (hash : String) (now : Nat) (hu : dbLookup db id = some u)
    (hne : ¬ u.version = ver) :
    updateWritePhase db id ver hash now
      = (db, Except.error RepoError.userNotFound) := by
  unfold updateWritePhase
  rw [condUpdate_miss db id u ver hash now hu hne]
  simp

theorem updateWritePhase_none (db : DB) (id : UserId) (ver : Nat) (hash : String)
    (now : Nat) (hnone : dbLookup db id = none) :
    updateWritePhase db id ver hash now
      = (db, Except.error RepoError.userNotFound) := by
  have hc : condUpdatePassword db id ver hash now = (db, 0) := by
    unfold condUpdatePassword
    rw [hnone]
  unfold updateWritePhase
  rw [hc]
  simp

/-- C1: with `v0` the version read in the read phase, the conditional
write against the table as it stands at write time (`dbW`, holding `u1`
under `id`) takes effect only if `u1.version` still equals `v0`: if the
version moved, the operation fails with the store's NotFound error and
writes nothing; if it still matches, the write succeeds, stores the new
hash, bumps the version by exactly one, refreshes the update timestamp
and touches no other row. -/
theorem updatePassword_conditional_write (dbR dbW : DB) (id : UserId)
    (u0 u1 : UserRec) (hash : String) (now : Nat)
    (_hread : updateReadPhase dbR id = Except.ok u0)
    (hcur : dbLookup dbW id = some u1) :
    (u1.version ≠ u0.version →
        updateWritePhase dbW id u0.version hash now
          = (dbW, Except.error RepoError.userNotFound))
  ∧ (u1.version = u0.version →
        (updateWritePhase dbW id u0.version hash now).2 = Except.ok ()
      ∧ dbLookup (updateWritePhase dbW id u0.version hash now).1 id
          = some { u1 with passwordHash := hash, version := (u1.version + 1),
                           updatedAt := now }
      ∧ ∀ j, j ≠ id →
          dbLookup (updateWritePhase dbW id u0.version hash now).1 j
            = dbLookup dbW j) := by
  constructor
  · intro hne
    exact updateWritePhase_miss dbW id u1 u0.version hash now hcur hne
  · intro he
    rw [← he]
    rw [updateWritePhase_hit dbW id u1 hash now hcur]
    refine ⟨rfl, ?_, ?_⟩
    · exact dbLookup_update_self dbW id u1 _ hcur
    · intro j hj
      exact dbLookup_update_other dbW id j _ hj

def newHash1 : String := "bcrypt-hash-one"

def newHash2 : String := "bcrypt-hash-two"

def aliceRec : UserRec :=
  { username := "alice", email := "alice@example.com", passwordHash := "h0",
    isActive := true, version := 1, createdAt := 0, updatedAt := 0 }

def testDB : DB := [(1, aliceRec)]

theorem updatePassword_conditional_write_witness :
    updateReadPhase testDB 1 = Except.ok aliceRec
  ∧ dbLookup testDB 1 = some aliceRec
  ∧ (updateWritePhase testDB 1 aliceRec.version newHash1 5).2 = Except.ok ()
  ∧ dbLookup (updateWritePhase testDB 1 aliceRec.version newHash1 5).1 1
      = some { aliceRec with passwordHash := newHash1,
                             version := (aliceRec.version + 1), updatedAt := 5 } :=
  ⟨rfl, rfl,
    ((updatePassword_conditional_write testDB testDB 1 aliceRec aliceRec newHash1 5
        rfl rfl).2 rfl).1,
    ((updatePassword_conditional_write testDB testDB 1 aliceRec aliceRec newHash1 5
        rfl rfl).2 rfl).2.1⟩

/-- C2: two password updates for the same user whose read phases both
observed the same stored version (`u.version`) serialize so that the
first conditional write succeeds and the second fails with the store's
NotFound/Conflict error while writing nothing; the persisted version
after both calls is the initial version plus one, not plus two. -/
theorem concurrent_updates_serialize (db : DB) (id : UserId) (u : UserRec)
    (hashA hashB : String) (t1 t2 : Nat)
    (hu : dbLookup db id = some u) (hact : u.isActive = true) :
    updateReadPhase db id = Except.ok u
  ∧ (updateWritePhase db id u.version hashA t1).2 = Except.ok ()
  ∧ (updateWritePhase (updateWritePhase db id u.version hashA t1).1 id
      u.version hashB t2).2 = Except.error RepoError.userNotFound
  ∧ (updateWritePhase (updateWritePhase db id u.version hashA t1).1 id
      u.version hashB t2).1 = (updateWritePhase db id u.version hashA t1).1
  ∧ (dbLookup (updateWritePhase db id u.version hashA t1).1 id).map
      (fun r => r.version) = some (u.version + 1) := by
  have hw1 := updateWritePhase_hit db id u hashA t1 hu
  have hl1 : dbLookup (updateWritePhase db id u.version hashA t1).1 id
      = some { u with passwordHash := hashA, version := (u.version + 1),
                      updatedAt := t1 } := by
    rw [hw1]
    exact dbLookup_update_self db id u _ hu
  have hw2 := updateWritePhase_miss (updateWritePhase db id u.version hashA t1).1
    id { u with passwordHash := hashA, version := (u.version + 1), updatedAt := t1 }
    u.version hashB t2 hl1 (by simp)
  refine ⟨?_, ?_, ?_, ?_, ?_⟩
  · unfold updateReadPhase
    rw [hu]
    simp [hact]
  · rw [hw1]
  · rw [hw2]
  · rw [hw2]
  · rw [hl1]
    rfl

theorem concurrent_updates_serialize_witness :
    dbLookup testDB 1 = some aliceRec
  ∧ aliceRec.isActive = true
  ∧ (updateWritePhase testDB 1 aliceRec.version newHash1 5).2 = Except.ok ()
  ∧ (updateWritePhase (updateWritePhase testDB 1 aliceRec.version newHash1 5).1 1
      aliceRec.version newHash2 6).2 = Except.error RepoError.userNotFound
  ∧ (dbLookup (updateWritePhase testDB 1 aliceRec.version newHash1 5).1 1).map
      (fun r => r.version) = some (aliceRec.version + 1) :=
  ⟨rfl, rfl,
    (concurrent_updates_serialize testDB 1 aliceRec newHash1 newHash2 5 6 rfl rfl).2.1,
    (concurrent_updates_serialize testDB 1 aliceRec newHash1 newHash2 5 6 rfl rfl).2.2.1,
    (concurrent_updates_serialize testDB 1 aliceRec newHash1 newHash2 5 6 rfl rfl).2.2.2.2⟩

/-- C9: calling `UpdatePassword` for a user id with no record, or whose
record is inactive, fails in the read phase with the NotFound error
(`ErrUserNotFound`; the store has no separate conflict error to return
here) and leaves the table unchanged. -/
theorem updatePassword_missing_or_inactive (db : DB) (id : UserId) (hash : String)
    (now : Nat)
    (h : dbLookup db id = none
      ∨ ∃ u, dbLookup db id = some u ∧ u.isActive = false) :
    UpdatePassword db id hash now = (db, Except.error RepoError.userNotFound) := by
  have hr : updateReadPhase db id = Except.error RepoError.userNotFound := by
    unfold updateReadPhase
    rcases h with hnone | ⟨u, hu, hinact⟩
    · rw [hnone]
    · rw [hu]
      simp [hinact]
  unfold UpdatePassword
  rw [hr]

def bobRec : UserRec :=
  { username := "bob", email := "bob@example.com", passwordHash := "h9",
    isActive := false, version := 3, createdAt := 0, updatedAt := 0 }

def testDB2 : DB := [(2, bobRec)]

theorem updatePassword_missing_or_inactive_witness :
    (dbLookup testDB2 2 = none
      ∨ ∃ u, dbLookup testDB2 2 = some u ∧ u.isActive = false)
  ∧ UpdatePassword testDB2 2 newHash1 7
      = (testDB2, Except.error RepoError.userNotFound) :=
  ⟨Or.inr ⟨bobRec, rfl, rfl⟩,
    updatePassword_missing_or_inactive testDB2 2 newHash1 7
      (Or.inr ⟨bobRec, rfl, rfl⟩)⟩
